import Mathlib

/-!
# CANalyzer Mimic Pro — verification of the parsing/query core

Shallow embedding of `src/canalyzer_mimic.py` (class `CANLogAnalyzer`).
The GUI widgets are out of scope; what is modelled are the data
operations the widgets drive:

* `load_file`            (lines 78-102): dialog result, `pd.read_csv` with
  `sep=r'\s+'` and `names=['Timestamp','ID','DLC','Data']`, the
  `astype(float)` timestamp conversion, and `split_data_column`;
* `split_data_column`    (lines 104-115): `str.split(' ', expand=True)`,
  reindex to 8 columns filled with NaN, `pd.to_numeric(..., errors='coerce')`;
* the listbox population (lines 127-129): `sorted(self.df['ID'].unique())`;
* `plot_data`            (lines 148-180): the two guard branches, the
  `Timestamp.max()` x-limit, and the per-signal filter
  `df['ID'].str.strip().str.upper() == signal.upper()`.

Numbers that pandas stores as float64 are modelled as `Rat`; a missing
value (NaN cell) is modelled as `none` of an `Option`.  Python string
scalars are Lean `String`s, and the Python string operations used by the
source (`str.split(' ')`, whitespace tokenisation, `strip`, `upper`) are
re-implemented below on `List Char` so that they can be both executed and
reasoned about.
-/

/-- Decimal digit test, as used by Python float parsing. -/
def isDigitChar (c : Char) : Bool := '0' ≤ c && c ≤ '9'

/-- Value of a list of decimal digit characters, most significant first. -/
def digitsVal (cs : List Char) : Nat :=
  cs.foldl (fun a c => 10 * a + (c.toNat - 48)) 0

/-- Parse an optional decimal exponent suffix (`e`/`E`, optional sign,
digits) applied to an already parsed mantissa.  Empty input means "no
exponent". -/
def applyExponent (q : Rat) (cs : List Char) : Option Rat :=
  match cs with
  | [] => some q
  | e :: rest =>
    if e = 'e' ∨ e = 'E' then
      match rest with
      | '+' :: ds => if ds ≠ [] ∧ ds.all isDigitChar then some (q * 10 ^ digitsVal ds) else none
      | '-' :: ds => if ds ≠ [] ∧ ds.all isDigitChar then some (q / 10 ^ digitsVal ds) else none
      | ds => if ds ≠ [] ∧ ds.all isDigitChar then some (q * 10 ^ digitsVal ds) else none
    else none

/-- Parse an unsigned decimal literal `digits [. digits] [exponent]`.
At least one digit must be present around the decimal point.  This models
what Python's `float(...)` and `pd.to_numeric` accept on the plain decimal
literals that occur in CAN logs (special spellings such as `nan`, `inf`,
underscore separators are not modelled: on every input used below the
model and Python agree). -/
def parseUnsigned (cs : List Char) : Option Rat :=
  let intPart := cs.takeWhile isDigitChar
  let rest := cs.dropWhile isDigitChar
  match rest with
  | '.' :: rest2 =>
    let frac := rest2.takeWhile isDigitChar
    let rest3 := rest2.dropWhile isDigitChar
    if intPart = [] ∧ frac = [] then none
    else applyExponent ((digitsVal intPart : Rat) + (digitsVal frac : Rat) / 10 ^ frac.length) rest3
  | _ =>
    if intPart = [] then none
    else applyExponent (digitsVal intPart : Rat) rest

/-- Model of Python `float(s)` / `pd.to_numeric(s, errors='coerce')` on a
single token: `none` models a raised `ValueError` (for `float`) or a
coerced NaN (for `to_numeric`). -/
def parseFloat (s : String) : Option Rat :=
  match s.data with
  | '+' :: cs => parseUnsigned cs
  | '-' :: cs => (parseUnsigned cs).map Neg.neg
  | cs => parseUnsigned cs

/-- Split a character list at every single occurrence of `sep`;
consecutive separators yield empty pieces, and the result is never empty.
With `sep = ' '` this is Python's `s.split(' ')`, the splitter
`pandas.Series.str.split(' ')` applies per cell (line 107 of the source);
with `sep` a newline it recovers the file's lines. -/
def splitOnChar (sep : Char) : List Char → List (List Char)
  | [] => [[]]
  | c :: rest =>
    if c = sep then [] :: splitOnChar sep rest
    else
      match splitOnChar sep rest with
      | [] => [[c]]
      | t :: ts => (c :: t) :: ts

/-- Python `s.split(' ')` on the characters of one `Data` cell. -/
def splitSingleSpace (cs : List Char) : List (List Char) := splitOnChar ' ' cs

/-- Whitespace-run tokenisation, the model of `pd.read_csv(..., sep=r'\s+')`
splitting one line into fields: maximal runs of non-whitespace characters.
The accumulator carries the current (reversed) token. -/
def splitWSAux : List Char → List Char → List (List Char)
  | [], acc => if acc = [] then [] else [acc.reverse]
  | c :: rest, acc =>
    if c.isWhitespace then
      if acc = [] then splitWSAux rest []
      else acc.reverse :: splitWSAux rest []
    else splitWSAux rest (c :: acc)

/-- Tokenise a line on whitespace runs. -/
def splitWS (cs : List Char) : List (List Char) := splitWSAux cs []

/-- Python `s.strip()`: drop leading and trailing whitespace characters. -/
def stripChars (cs : List Char) : List Char :=
  ((cs.dropWhile Char.isWhitespace).reverse.dropWhile Char.isWhitespace).reverse

/-- `str.strip` lifted to `String`. -/
def stripStr (s : String) : String := ⟨stripChars s.data⟩

/-- `str.upper` lifted to `String` (ASCII case fold, which covers CAN
identifiers such as `"1a0"`). -/
def upperStr (s : String) : String := ⟨s.data.map Char.toUpper⟩

/-- One byte cell of the log table: `none` models a NaN produced by a
missing or unparsable token. -/
abbrev ByteCell := Option Rat

/-- `split_data_column` per cell (source lines 107-111): split the `Data`
cell on single spaces, keep the first 8 positions (`reindex(columns=range(8))`
discards the rest and pads missing positions with NaN), and coerce each
token with `pd.to_numeric(..., errors='coerce')`.  A NaN `Data` cell
(`none`) yields a full row of NaN bytes, as `str.split` propagates NaN. -/
def splitBytes (data : Option String) : List ByteCell :=
  match data with
  | none => List.replicate 8 none
  | some s =>
    let toks := (splitSingleSpace s.data).map (fun cs => (⟨cs⟩ : String))
    (List.range 8).map (fun i => (toks.get? i).bind parseFloat)

/-- One row of the frame as `pd.read_csv` produced it, before the
`astype(float)` timestamp conversion.  `none` models a NaN cell of a row
shorter than the four named columns.  A line always has at least one
token, so `Timestamp` is always a string. -/
structure RawRow where
  timestamp : String
  id : Option String
  dlc : Option String
  data : Option String
deriving Repr, DecidableEq

/-- One row of the fully loaded frame: float timestamp, string `ID`,
`DLC` and `Data` cells, and the eight `Byte_i` columns added by
`split_data_column`. -/
structure Row where
  timestamp : Rat
  id : Option String
  dlc : Option String
  data : Option String
  bytes : List ByteCell
deriving Repr, DecidableEq

/-- The `self.df` attribute.  `typed` is a frame whose `Timestamp` column
has been converted to float and whose byte columns exist; `raw` is the
frame as read from disk when the `astype(float)` conversion raised, which
is the state `load_file`'s `except` branch leaves behind (the read at
line 86 already assigned `self.df`). -/
inductive Frame where
  | typed : List Row → Frame
  | raw : List RawRow → Frame
deriving Repr, DecidableEq

/-- `self.df.empty`: no rows. -/
def Frame.isEmpty : Frame → Bool
  | .typed rows => rows.isEmpty
  | .raw rows => rows.isEmpty

/-- The analyzer state touched by the modelled methods: `self.log_file`,
`self.df` and `self.colors` (widgets are out of scope). -/
structure AnalyzerState where
  log_file : String
  df : Frame
  colors : List (String × String)
deriving Repr, DecidableEq

/-- The state `__init__` builds: empty path, empty frame, no colors. -/
def initialState : AnalyzerState := ⟨"", .typed [], []⟩

/-- Map one whitespace-tokenised line to a `RawRow`, following pandas'
rule for `names=['Timestamp','ID','DLC','Data']`: when a line has more
fields than names the extra leading fields become the index (so the four
named columns take the LAST four tokens), and when it has fewer the
missing trailing columns are NaN.  `dtype={'ID': str, 'Data': str}` keeps
those columns as strings. -/
def mkRawRow (toks : List String) : RawRow :=
  let named := if 4 ≤ toks.length then toks.drop (toks.length - 4) else toks
  { timestamp := named.headD ""
    id := named.get? 1
    dlc := named.get? 2
    data := named.get? 3 }

/-- Tokenise one line on whitespace runs (`sep=r'\s+'`). -/
def tokenizeLine (line : String) : List String :=
  (splitWS line.data).map (fun cs => (⟨cs⟩ : String))

/-- Model of `pd.read_csv(path, sep=r'\s+', names=[...], dtype=..)` applied
to the file's text: split into lines, skip blank lines (pandas'
`skip_blank_lines` default; a whitespace-only line has no tokens), and
build one `RawRow` per remaining line, in file order.  A file with no
data rows at all makes `read_csv` raise `EmptyDataError`, modelled as
`none`. -/
def fileLines (contents : String) : List String :=
  (splitOnChar (Char.ofNat 10) contents.data).map (fun cs => (⟨cs⟩ : String))

def readCSV (contents : String) : Option (List RawRow) :=
  let rows := ((fileLines contents).map tokenizeLine).filter (· ≠ [])
  if rows = [] then none else some (rows.map mkRawRow)

/-- Convert one raw row: `astype(float)` on its `Timestamp` cell plus the
per-row effect of `split_data_column` (lines 94-95 and 104-111).  `none`
models the `ValueError` that `astype(float)` raises on an unparsable
timestamp. -/
def convertRow (r : RawRow) : Option Row :=
  (parseFloat r.timestamp).map fun t =>
    { timestamp := t, id := r.id, dlc := r.dlc, data := r.data
      bytes := splitBytes r.data }

/-- Sequence a list of options: `some` exactly when every element is. -/
def seqOpt : List (Option α) → Option (List α)
  | [] => some []
  | none :: _ => none
  | some x :: xs => (seqOpt xs).map (x :: ·)

/-- `astype(float)` over the whole `Timestamp` column followed by
`split_data_column`: any single unparsable timestamp makes the whole
conversion raise, so the result is all-or-nothing. -/
def convertFrame (rs : List RawRow) : Option (List Row) :=
  seqOpt (rs.map convertRow)

/-- Outcome of one `load_file` call, as observable by the user. -/
inductive LoadResult where
  /-- The file dialog was cancelled (empty path): the `else` branch at
  lines 101-102 only updates the label. -/
  | cancelled : LoadResult
  /-- `read_csv` itself raised (missing/unreadable file, or
  `EmptyDataError` on an empty file): the `except` branch reports the
  error; `self.df` was never reassigned. -/
  | readError : LoadResult
  /-- `read_csv` succeeded but `astype(float)` raised: the `except`
  branch reports the error, but `self.df` already holds the raw frame. -/
  | convertError : LoadResult
  /-- Full success: frame loaded, converted and byte-split. -/
  | loaded : LoadResult
deriving Repr, DecidableEq

/-- `load_file` (source lines 78-102).  `path` is what
`filedialog.askopenfilename` returned (`""` when cancelled) and
`readFile` models the file system (`none` = the file cannot be opened
or read).  Note that `self.log_file` is assigned the dialog result at
line 80 unconditionally, before the emptiness test. -/
def load_file (path : String) (readFile : String → Option String)
    (s : AnalyzerState) : AnalyzerState × LoadResult :=
  let s1 := { s with log_file := path }
  if path = "" then (s1, .cancelled)
  else
    match readFile path with
    | none => (s1, .readError)
    | some contents =>
      match readCSV contents with
      | none => (s1, .readError)
      | some raws =>
        match convertFrame raws with
        | none => ({ s1 with df := .raw raws }, .convertError)
        | some rows => ({ s1 with df := .typed rows }, .loaded)

/-- First-occurrence deduplication with a seen-set accumulator. -/
def uniqueFirstAux (seen : List (Option String)) :
    List (Option String) → List (Option String)
  | [] => []
  | x :: xs =>
    if x ∈ seen then uniqueFirstAux seen xs
    else x :: uniqueFirstAux (x :: seen) xs

/-- First-occurrence deduplication, the model of
`pandas.Series.unique()` on the `ID` column (which may contain NaN). -/
def uniqueFirst (l : List (Option String)) : List (Option String) :=
  uniqueFirstAux [] l

/-- The listbox population of `create_signal_selection_window` (source
lines 127-129): `sorted(self.df['ID'].unique())`.  Modelled for frames
whose `ID` column has no missing value; a NaN among the unique values
would make Python's `sorted` compare `float` with `str` and raise, an
exceptional path no claim exercises, returned here as `none`. -/
def distinct_message_ids (rows : List Row) : Option (List String) :=
  (seqOpt (uniqueFirst (rows.map (·.id)))).map
    (List.insertionSort (· ≤ ·))

/-- `self.df['Timestamp'].max()` on a loaded frame.  pandas' max of an
empty column is NaN, but `plot_data` only reaches this point behind the
non-empty guard, so the `[]` case is unreachable (given value `0`). -/
def tsMax : List Row → Rat
  | [] => 0
  | r :: rs => (rs.map (·.timestamp)).foldl max r.timestamp

/-- The per-signal row filter of `plot_data` (source line 166):
`self.df['ID'].str.strip().str.upper() == signal.upper()`.  A NaN `ID`
cell propagates through `.str` accessors and compares unequal to any
string, hence `false`. -/
def matchesSignal (signal : String) (r : Row) : Bool :=
  match r.id with
  | some i => upperStr (stripStr i) == upperStr signal
  | none => false

/-- What the renderer receives for one signal: the filtered `Timestamp`
column and the eight filtered `Byte_i` columns, index-aligned
(source lines 171-172). -/
structure SignalSeries where
  timestamps : List Rat
  channels : List (List ByteCell)
deriving Repr, DecidableEq

/-- Build the series plotted for one signal's filtered rows. -/
def mkSeries (f : List Row) : SignalSeries :=
  { timestamps := f.map (·.timestamp)
    channels := (List.range 8).map (fun i => f.map (fun r => r.bytes.getD i none)) }

/-- The data plotted for one selected signal, or `none` when its filter
matches no row (`if df_filtered.empty: continue`, lines 166-168). -/
def seriesFor (rows : List Row) (signal : String) : Option SignalSeries :=
  let f := rows.filter (matchesSignal signal)
  if f = [] then none else some (mkSeries f)

/-- The per-signal output of one `plot_data` call over the selected
signals, in selection order; signals whose filter is empty contribute
nothing (the `continue`). -/
def queryPanels (rows : List Row) (selected : List String) :
    List (String × SignalSeries) :=
  selected.filterMap (fun sig => (seriesFor rows sig).map (fun se => (sig, se)))

/-- Outcome of one `plot_data` call. -/
inductive PlotResult where
  /-- `messagebox.showwarning("Input Error", ...)` at line 152: no signal
  selected. -/
  | warnNoSignal : PlotResult
  /-- `messagebox.showwarning("File Error", ...)` at line 156: empty frame. -/
  | warnNoFile : PlotResult
  /-- A figure was produced: shared x-limits `(0, last_timestamp)` from
  `ax.set_xlim(0, last_timestamp)`, and the per-signal panels. -/
  | plotted : Rat × Rat → List (String × SignalSeries) → PlotResult
  /-- The frame is in the raw (failed-conversion) state: the plotting code
  would operate on string timestamps; behavior not modelled. -/
  | invalid : PlotResult
deriving Repr, DecidableEq

/-- `plot_data` (source lines 148-180).  `selected` is what the listbox
selection supplies.  The method never writes `self.df`, `self.colors` or
`self.log_file`, so the state component of the result is the input state. -/
def plot_data (selected : List String) (s : AnalyzerState) :
    AnalyzerState × PlotResult :=
  if selected.isEmpty then (s, .warnNoSignal)
  else if s.df.isEmpty then (s, .warnNoFile)
  else
    match s.df with
    | .typed rows => (s, .plotted (0, tsMax rows) (queryPanels rows selected))
    | .raw _ => (s, .invalid)

/-- `clear_data` (source lines 182-187): empty frame, colors cleared
(the label and listbox are widgets, out of scope). -/
def clear_data (s : AnalyzerState) : AnalyzerState :=
  { s with df := .typed [], colors := [] }

/-! ## Helper lemmas -/

theorem seqOpt_eq_some_iff {l : List (Option α)} {xs : List α} :
    seqOpt l = some xs ↔ List.Forall₂ (fun o x => o = some x) l xs := by
  induction l generalizing xs with
  | nil =>
    simp only [seqOpt]
    constructor
    · rintro ⟨rfl⟩; exact List.Forall₂.nil
    · rintro h; cases h; rfl
  | cons o l ih =>
    cases o with
    | none =>
      simp only [seqOpt]
      constructor
      · rintro ⟨⟩
      · rintro h; cases h with
        | cons h1 _ => cases h1
    | some x =>
      simp only [seqOpt]
      constructor
      · intro h
        rcases Option.map_eq_some'.mp h with ⟨ys, hys, rfl⟩
        exact List.Forall₂.cons rfl (ih.mp hys)
      · rintro h
        cases h with
        | cons h1 h2 =>
          cases h1
          rw [ih.mpr h2]
          rfl

theorem forall2_mem_right {R : α → β → Prop} :
    ∀ {l₁ : List α} {l₂ : List β}, List.Forall₂ R l₁ l₂ → ∀ b ∈ l₂, ∃ a ∈ l₁, R a b := by
  intro l₁ l₂ h
  induction h with
  | nil => intro b hb; cases hb
  | cons h1 _ ih =>
    intro b hb
    rcases List.mem_cons.mp hb with rfl | hb
    · exact ⟨_, List.mem_cons_self _ _, h1⟩
    · rcases ih b hb with ⟨a, ha, hR⟩
      exact ⟨a, List.mem_cons_of_mem _ ha, hR⟩

theorem seqOpt_isSome (l : List (Option α)) (h : ∀ o ∈ l, o.isSome) :
    ∃ xs, seqOpt l = some xs := by
  induction l with
  | nil => exact ⟨[], rfl⟩
  | cons o l ih =>
    rcases Option.isSome_iff_exists.mp (h o (List.mem_cons_self _ _)) with ⟨x, rfl⟩
    rcases ih (fun o ho => h o (List.mem_cons_of_mem _ ho)) with ⟨xs, hxs⟩
    exact ⟨x :: xs, by simp [seqOpt, hxs]⟩

theorem foldl_max_init_le (l : List Rat) : ∀ a : Rat, a ≤ l.foldl max a := by
  induction l with
  | nil => intro a; exact le_refl a
  | cons b l ih =>
    intro a
    exact le_trans (le_max_left a b) (ih (max a b))

theorem foldl_max_mem (l : List Rat) : ∀ a : Rat, l.foldl max a = a ∨ l.foldl max a ∈ l := by
  induction l with
  | nil => intro a; exact Or.inl rfl
  | cons b l ih =>
    intro a
    rcases ih (max a b) with h | h
    · rw [List.foldl_cons, h]
      rcases max_choice a b with h2 | h2
      · exact Or.inl h2
      · exact Or.inr (by rw [h2]; exact List.mem_cons_self b l)
    · exact Or.inr (List.mem_cons_of_mem _ h)

theorem le_foldl_max (l : List Rat) : ∀ a b : Rat, b ∈ l → b ≤ l.foldl max a := by
  induction l with
  | nil => intro a b hb; cases hb
  | cons c l ih =>
    intro a b hb
    rcases List.mem_cons.mp hb with rfl | hb
    · exact le_trans (le_max_right a b) (foldl_max_init_le l (max a b))
    · exact ih (max a c) b hb

/-- `tsMax` of a non-empty frame is one of its timestamps. -/
theorem tsMax_mem (rows : List Row) (h : rows ≠ []) :
    tsMax rows ∈ rows.map (·.timestamp) := by
  match rows with
  | [] => exact absurd rfl h
  | r :: rs =>
    show tsMax (r :: rs) ∈ r.timestamp :: rs.map (·.timestamp)
    rcases foldl_max_mem (rs.map (·.timestamp)) r.timestamp with h2 | h2
    · rw [tsMax, h2]; exact List.mem_cons_self _ _
    · exact List.mem_cons_of_mem _ (by rw [tsMax]; exact h2)

/-- `tsMax` of a non-empty frame bounds every timestamp. -/
theorem le_tsMax (rows : List Row) (t : Rat) (h : t ∈ rows.map (·.timestamp)) :
    t ≤ tsMax rows := by
  match rows with
  | [] => cases h
  | r :: rs =>
    rcases List.mem_cons.mp h with h2 | h2
    · rw [tsMax, h2]; exact foldl_max_init_le _ _
    · exact le_foldl_max _ _ _ h2

/-- `tsMax` is invariant under row reordering. -/
theorem tsMax_perm (rows rows' : List Row) (hp : rows.Perm rows') (h : rows ≠ []) :
    tsMax rows = tsMax rows' := by
  have h' : rows' ≠ [] := fun he => h (List.Perm.eq_nil (he ▸ hp))
  have hm : (rows.map (·.timestamp)).Perm (rows'.map (·.timestamp)) := hp.map _
  exact le_antisymm
    (le_tsMax _ _ (hm.mem_iff.mp (tsMax_mem rows h)))
    (le_tsMax _ _ (hm.symm.mem_iff.mp (tsMax_mem rows' h')))

theorem splitWSAux_clean :
    ∀ (cs acc : List Char), (∀ c ∈ acc, c.isWhitespace = false) →
      ∀ t ∈ splitWSAux cs acc, ∀ c ∈ t, c.isWhitespace = false := by
  intro cs
  induction cs with
  | nil =>
    intro acc hacc t ht c hc
    rw [splitWSAux] at ht
    by_cases h : acc = []
    · rw [if_pos h] at ht; cases ht
    · rw [if_neg h] at ht
      rcases List.mem_cons.mp ht with rfl | ht
      · exact hacc c (List.mem_reverse.mp hc)
      · cases ht
  | cons d rest ih =>
    intro acc hacc t ht c hc
    rw [splitWSAux] at ht
    by_cases hws : d.isWhitespace = true
    · rw [if_pos hws] at ht
      by_cases h : acc = []
      · rw [if_pos h] at ht
        exact ih [] (fun x hx => absurd hx (List.not_mem_nil x)) t ht c hc
      · rw [if_neg h] at ht
        rcases List.mem_cons.mp ht with rfl | ht
        · exact hacc c (List.mem_reverse.mp hc)
        · exact ih [] (fun x hx => absurd hx (List.not_mem_nil x)) t ht c hc
    · rw [if_neg hws] at ht
      refine ih (d :: acc) ?_ t ht c hc
      intro x hx
      rcases List.mem_cons.mp hx with rfl | hx
      · exact Bool.not_eq_true _ ▸ Bool.eq_false_iff.mpr hws
      · exact hacc x hx

/-- Every token produced by whitespace tokenisation is free of whitespace
characters. -/
theorem splitWS_clean (cs : List Char) :
    ∀ t ∈ splitWS cs, ∀ c ∈ t, c.isWhitespace = false :=
  splitWSAux_clean cs [] (fun x hx => absurd hx (List.not_mem_nil x))

/-- Dropping a whitespace prefix from a whitespace-free list is a no-op. -/
theorem dropWhile_clean (l : List Char) (h : ∀ c ∈ l, c.isWhitespace = false) :
    l.dropWhile Char.isWhitespace = l := by
  cases l with
  | nil => rfl
  | cons c l =>
    rw [List.dropWhile_cons, if_neg]
    rw [h c (List.mem_cons_self _ _)]
    simp

/-- Stripping a whitespace-free string is a no-op. -/
theorem stripStr_of_clean (s : String) (h : ∀ c ∈ s.data, c.isWhitespace = false) :
    stripStr s = s := by
  obtain ⟨d⟩ := s
  show (⟨stripChars d⟩ : String) = ⟨d⟩
  rw [stripChars, dropWhile_clean d h, dropWhile_clean, List.reverse_reverse]
  intro c hc
  exact h c (List.mem_reverse.mp hc)

/-- Every named field of a raw row is one of the line's tokens. -/
theorem mkRawRow_id_mem (toks : List String) (i : String)
    (h : (mkRawRow toks).id = some i) : i ∈ toks := by
  rw [mkRawRow] at h
  simp only at h
  by_cases hlen : 4 ≤ toks.length
  · rw [if_pos hlen] at h
    exact List.mem_of_mem_drop (List.get?_mem h)
  · rw [if_neg hlen] at h
    exact List.get?_mem h

/-- Every `ID` cell of a frame read from text is whitespace-free: the
tokeniser consumed all whitespace as separators. -/
theorem readCSV_ids_clean (contents : String) (raws : List RawRow)
    (h : readCSV contents = some raws) :
    ∀ r ∈ raws, ∀ i, r.id = some i → ∀ c ∈ i.data, c.isWhitespace = false := by
  rw [readCSV] at h
  set rows := (((fileLines contents)).map tokenizeLine).filter (· ≠ []) with hrows
  by_cases hempty : rows = []
  · rw [if_pos hempty] at h; cases h
  · rw [if_neg hempty] at h
    cases h
    intro r hr i hi c hc
    rcases List.mem_map.mp hr with ⟨toks, htoks, rfl⟩
    have htoks2 : toks ∈ (fileLines contents).map tokenizeLine :=
      List.mem_of_mem_filter htoks
    rcases List.mem_map.mp htoks2 with ⟨line, _, rfl⟩
    have hmem : i ∈ tokenizeLine line := mkRawRow_id_mem _ _ hi
    rcases List.mem_map.mp hmem with ⟨t, ht, rfl⟩
    exact splitWS_clean line.data t ht c hc

/-- Inversion of `convertRow`. -/
theorem convertRow_inv (r : RawRow) (row : Row) (h : convertRow r = some row) :
    (parseFloat r.timestamp = some row.timestamp) ∧ row.id = r.id ∧
      row.dlc = r.dlc ∧ row.data = r.data ∧ row.bytes = splitBytes r.data := by
  rw [convertRow] at h
  rcases Option.map_eq_some'.mp h with ⟨t, ht, rfl⟩
  exact ⟨ht, rfl, rfl, rfl, rfl⟩

/-- Inversion of a fully successful `load_file`. -/
theorem load_file_loaded_inv (path : String) (rf : String → Option String)
    (s : AnalyzerState) (h : (load_file path rf s).2 = .loaded) :
    ∃ contents raws rows, path ≠ "" ∧ rf path = some contents ∧
      readCSV contents = some raws ∧ convertFrame raws = some rows ∧
      (load_file path rf s).1 = { s with log_file := path, df := .typed rows } := by
  by_cases hpath : path = ""
  · simp [load_file, hpath] at h
  · cases hrf : rf path with
    | none => simp [load_file, hpath, hrf] at h
    | some contents =>
      cases hcsv : readCSV contents with
      | none => simp [load_file, hpath, hrf, hcsv] at h
      | some raws =>
        cases hconv : convertFrame raws with
        | none => simp [load_file, hpath, hrf, hcsv, hconv] at h
        | some rows =>
          refine ⟨contents, raws, rows, hpath, ?_, hcsv, hconv, ?_⟩
          · rfl
          · simp [load_file, hpath, hrf, hcsv, hconv]

/-- A cancelled dialog: only `self.log_file` is assigned (line 80) and the
`else` branch runs. -/
theorem load_file_cancelled_eq (rf : String → Option String) (s : AnalyzerState) :
    load_file "" rf s = ({ s with log_file := "" }, .cancelled) := rfl

/-- Inversion of a read-level failure: `self.df` was never reassigned. -/
theorem load_file_readError_inv (path : String) (rf : String → Option String)
    (s : AnalyzerState) (h : (load_file path rf s).2 = .readError) :
    (load_file path rf s).1 = { s with log_file := path } := by
  by_cases hpath : path = ""
  · simp [load_file, hpath] at h
  · cases hrf : rf path with
    | none => simp [load_file, hpath, hrf]
    | some contents =>
      cases hcsv : readCSV contents with
      | none => simp [load_file, hpath, hrf, hcsv]
      | some raws =>
        cases hconv : convertFrame raws with
        | none => simp [load_file, hpath, hrf, hcsv, hconv] at h
        | some rows => simp [load_file, hpath, hrf, hcsv, hconv] at h

/-- Inversion of a conversion-level failure: the raw frame read from the
failed file is what `self.df` holds afterwards. -/
theorem load_file_convertError_inv (path : String) (rf : String → Option String)
    (s : AnalyzerState) (h : (load_file path rf s).2 = .convertError) :
    ∃ contents raws, path ≠ "" ∧ rf path = some contents ∧
      readCSV contents = some raws ∧ convertFrame raws = none ∧
      (load_file path rf s).1 = { s with log_file := path, df := .raw raws } := by
  by_cases hpath : path = ""
  · simp [load_file, hpath] at h
  · cases hrf : rf path with
    | none => simp [load_file, hpath, hrf] at h
    | some contents =>
      cases hcsv : readCSV contents with
      | none => simp [load_file, hpath, hrf, hcsv] at h
      | some raws =>
        cases hconv : convertFrame raws with
        | none =>
          refine ⟨contents, raws, hpath, rfl, hcsv, hconv, ?_⟩
          simp [load_file, hpath, hrf, hcsv, hconv]
        | some rows => simp [load_file, hpath, hrf, hcsv, hconv] at h

/-- `uniqueFirst` only returns values of the input list. -/
theorem uniqueFirstAux_subset :
    ∀ (l seen : List (Option String)), ∀ x ∈ uniqueFirstAux seen l, x ∈ l := by
  intro l
  induction l with
  | nil =>
    intro seen x hx
    rw [uniqueFirstAux] at hx
    cases hx
  | cons y ys ih =>
    intro seen x hx
    rw [uniqueFirstAux] at hx
    by_cases h : y ∈ seen
    · rw [if_pos h] at hx
      exact List.mem_cons_of_mem _ (ih seen x hx)
    · rw [if_neg h] at hx
      rcases List.mem_cons.mp hx with rfl | hx
      · exact List.mem_cons_self _ _
      · exact List.mem_cons_of_mem _ (ih _ x hx)

/-- `uniqueFirst` only returns values of the input list. -/
theorem uniqueFirst_subset (l : List (Option String)) :
    ∀ x ∈ uniqueFirst l, x ∈ l :=
  uniqueFirstAux_subset l []

theorem map_eq_self_of_mem {f : α → α} {l : List α} (h : ∀ a ∈ l, f a = a) :
    l.map f = l := by
  induction l with
  | nil => rfl
  | cons a l ih =>
    rw [List.map_cons, h a (List.mem_cons_self _ _),
      ih (fun b hb => h b (List.mem_cons_of_mem _ hb))]

/-- The byte-splitting step always yields exactly 8 slots. -/
theorem splitBytes_length (data : Option String) : (splitBytes data).length = 8 := by
  cases data with
  | none => simp [splitBytes]
  | some s => simp [splitBytes]

/-- Splitting a list that does not contain the separator returns it whole. -/
theorem splitOnChar_of_not_mem (sep : Char) :
    ∀ cs : List Char, sep ∉ cs → splitOnChar sep cs = [cs] := by
  intro cs
  induction cs with
  | nil => intro _; rfl
  | cons c rest ih =>
    intro h
    have hc : ¬ (c = sep) := fun hc => h (List.mem_cons.mpr (Or.inl hc.symm))
    have hrest : sep ∉ rest := fun hm => h (List.mem_cons_of_mem _ hm)
    rw [splitOnChar, if_neg hc, ih hrest]

theorem seqOpt_eq_none (l : List (Option α)) (h : none ∈ l) : seqOpt l = none := by
  induction l with
  | nil => cases h
  | cons o l ih =>
    cases o with
    | none => rfl
    | some x =>
      rcases List.mem_cons.mp h with h1 | h1
      · exact Option.noConfusion h1
      · rw [seqOpt, ih h1]; rfl

/-- Each converted row comes from some raw row. -/
theorem convertFrame_mem (raws : List RawRow) (rows : List Row)
    (h : convertFrame raws = some rows) :
    ∀ row ∈ rows, ∃ raw ∈ raws, convertRow raw = some row := by
  intro row hrow
  rw [convertFrame] at h
  rcases forall2_mem_right (seqOpt_eq_some_iff.mp h) row hrow with ⟨o, ho, hx⟩
  rcases List.mem_map.mp ho with ⟨raw, hraw, heq⟩
  exact ⟨raw, hraw, heq.trans hx⟩

/-- A successful conversion is an order- and count-preserving rewrite of
the raw frame. -/
theorem convertFrame_forall2 (raws : List RawRow) (rows : List Row)
    (h : convertFrame raws = some rows) :
    List.Forall₂ (fun raw row => convertRow raw = some row) raws rows := by
  rw [convertFrame] at h
  exact List.forall₂_map_left_iff.mp (seqOpt_eq_some_iff.mp h)

/-- Every `ID` cell of a successfully loaded frame is whitespace-free. -/
theorem load_file_ids_clean (path : String) (rf : String → Option String)
    (s : AnalyzerState) (rows : List Row)
    (h : (load_file path rf s).2 = .loaded)
    (hdf : (load_file path rf s).1.df = .typed rows) :
    ∀ r ∈ rows, ∀ i, r.id = some i → ∀ c ∈ i.data, c.isWhitespace = false := by
  rcases load_file_loaded_inv path rf s h with ⟨contents, raws, rows', _, _, hcsv, hconv, hst⟩
  have hrows : rows = rows' := by
    rw [hst] at hdf
    have hdf2 : Frame.typed rows' = Frame.typed rows := hdf
    exact (Frame.typed.inj hdf2).symm
  subst hrows
  intro r hr i hi c hc
  rcases convertFrame_mem raws rows hconv r hr with ⟨raw, hraw, hcr⟩
  have hid := (convertRow_inv raw r hcr).2.1
  exact readCSV_ids_clean contents raws hcsv raw hraw i (hid ▸ hi) c hc

/-- Evaluation of `plot_data` past both guards on a loaded frame. -/
theorem plot_data_typed_eval (s : AnalyzerState) (rows : List Row) (sel : List String)
    (hdf : s.df = .typed rows) (hrows : rows ≠ []) (hsel : sel ≠ []) :
    plot_data sel s = (s, .plotted (0, tsMax rows) (queryPanels rows sel)) := by
  have h1 : sel.isEmpty = false := by
    cases sel with
    | nil => exact absurd rfl hsel
    | cons a l => rfl
  have h2 : rows.isEmpty = false := by
    cases rows with
    | nil => exact absurd rfl hrows
    | cons a l => rfl
  rw [plot_data, if_neg (by rw [h1]; exact Bool.false_ne_true), hdf]
  rw [if_neg (by show ¬ Frame.isEmpty (.typed rows) = true; rw [Frame.isEmpty, h2]; exact Bool.false_ne_true)]

/-! ## Claims -/

/-- C1: For every loaded record, the byte-splitting step produces exactly
8 byte slots regardless of how many space-separated tokens the raw `Data`
field contained: tokens beyond the 8th are discarded, and positions with
a missing or unparsable token are `none` (never zero, never any numeric
default); splitting `"1 2 3"` yields `[1,2,3,none,none,none,none,none]`
and splitting `"1 2 3 4 5 6 7 8 9"` yields `[1,...,8]`. -/
theorem claim_split_eight_slots :
    (∀ data, (splitBytes data).length = 8)
    ∧ (∀ path rf s, (load_file path rf s).2 = .loaded →
        ∃ rows, (load_file path rf s).1.df = .typed rows ∧
          ∀ r ∈ rows, r.bytes = splitBytes r.data ∧ r.bytes.length = 8)
    ∧ splitBytes (some "1 2 3") = [some 1, some 2, some 3, none, none, none, none, none]
    ∧ splitBytes (some "1 2 3 4 5 6 7 8 9")
        = [some 1, some 2, some 3, some 4, some 5, some 6, some 7, some 8]
    ∧ (∀ s : String, ∀ i : Nat, i < 8 →
        (((splitSingleSpace s.data).map (fun cs => (⟨cs⟩ : String))).get? i).bind parseFloat
          = none →
        (splitBytes (some s)).get? i = some none) := by
  refine ⟨splitBytes_length, ?_, by with_unfolding_all decide, by with_unfolding_all decide, ?_⟩
  · intro path rf s h
    rcases load_file_loaded_inv path rf s h with ⟨contents, raws, rows, _, _, _, hconv, hst⟩
    refine ⟨rows, by rw [hst], ?_⟩
    intro r hr
    rcases convertFrame_mem raws rows hconv r hr with ⟨raw, _, hcr⟩
    rcases convertRow_inv raw r hcr with ⟨_, _, _, hdata, hbytes⟩
    exact ⟨by rw [hdata]; exact hbytes, by rw [hbytes, splitBytes_length]⟩
  · intro s i hi hnone
    rw [List.get?_map] at hnone
    simp only [splitBytes, List.get?_map, List.get?_range hi, Option.map_some']
    rw [hnone]

def readFileC1 : String → Option String :=
  fun p => if p = "c1.txt" then some "0.5 1A0 8 11\n0.7 1a0 8 12" else none

theorem claim_split_eight_slots_witness :
    (∃ rows, (load_file "c1.txt" readFileC1 initialState).1.df = .typed rows ∧
      ∀ r ∈ rows, r.bytes = splitBytes r.data ∧ r.bytes.length = 8)
    ∧ (splitBytes (some "9 z")).get? 1 = some none :=
  ⟨claim_split_eight_slots.2.1 "c1.txt" readFileC1 initialState (by with_unfolding_all decide),
   claim_split_eight_slots.2.2.2.2 "9 z" 1 (by decide) (by with_unfolding_all decide)⟩

def readFileC2 : String → Option String :=
  fun p => if p = "c2.txt" then some "0.1 1A0 8 11\nxx 1A0 8 22\n0.2 1A0 8 33" else none

/-- C2 counterexample: two valid lines plus one line with an unparsable
timestamp do NOT yield a two-record table with parsing continuing; the
`astype(float)` conversion raises, the whole load fails, and the frame is
left holding the raw three-row frame read from the file. -/
theorem claim_skip_corrupt_line_cex :
    (load_file "c2.txt" readFileC2 initialState).2 = .convertError
    ∧ (load_file "c2.txt" readFileC2 initialState).1.df =
        .raw [⟨"0.1", some "1A0", some "8", some "11"⟩,
              ⟨"xx", some "1A0", some "8", some "22"⟩,
              ⟨"0.2", some "1A0", some "8", some "33"⟩]
    ∧ (load_file "c2.txt" readFileC2 initialState).1.df ≠
        .typed [⟨1/10, some "1A0", some "8", some "11", splitBytes (some "11")⟩,
                ⟨1/5, some "1A0", some "8", some "33", splitBytes (some "33")⟩] := by
  refine ⟨?_, ?_, ?_⟩ <;> with_unfolding_all decide

/-- C2 amended: when every line's timestamp parses as a float, loading
produces one record per line in order (N valid lines give N records); but
a single unparsable timestamp makes the whole load fail with one reported
error — the corrupt line is not dropped, and `self.df` is left holding
the raw unconverted frame. -/
theorem claim_skip_corrupt_line_amended :
    ∀ path rf s contents raws, path ≠ "" → rf path = some contents →
      readCSV contents = some raws →
      ((∀ r ∈ raws, (parseFloat r.timestamp).isSome) →
        ∃ rows, (load_file path rf s).2 = .loaded
          ∧ (load_file path rf s).1.df = .typed rows
          ∧ List.Forall₂ (fun raw row => convertRow raw = some row) raws rows
          ∧ rows.length = raws.length)
      ∧ ((∃ r ∈ raws, parseFloat r.timestamp = none) →
        (load_file path rf s).2 = .convertError
          ∧ (load_file path rf s).1.df = .raw raws) := by
  intro path rf s contents raws hpath hrf hcsv
  constructor
  · intro hall
    have hsome : ∀ o ∈ raws.map convertRow, o.isSome := by
      intro o ho
      rcases List.mem_map.mp ho with ⟨raw, hraw, rfl⟩
      rw [convertRow]
      rcases Option.isSome_iff_exists.mp (hall raw hraw) with ⟨t, ht⟩
      rw [ht]
      rfl
    rcases seqOpt_isSome _ hsome with ⟨rows, hrows⟩
    have hconv : convertFrame raws = some rows := hrows
    refine ⟨rows, ?_, ?_, convertFrame_forall2 raws rows hconv, ?_⟩
    · simp [load_file, hpath, hrf, hcsv, hconv]
    · simp [load_file, hpath, hrf, hcsv, hconv]
    · rw [← List.length_map raws convertRow]
      exact (List.Forall₂.length_eq (seqOpt_eq_some_iff.mp hrows)).symm
  · intro hex
    rcases hex with ⟨r, hr, hparse⟩
    have hconv : convertFrame raws = none := by
      rw [convertFrame]
      apply seqOpt_eq_none
      have hnone : convertRow r = none := by rw [convertRow, hparse]; rfl
      exact hnone ▸ List.mem_map_of_mem convertRow hr
    constructor
    · simp [load_file, hpath, hrf, hcsv, hconv]
    · simp [load_file, hpath, hrf, hcsv, hconv]

def readFileC2w : String → Option String :=
  fun p => if p = "c2w.txt" then some "0.1 1A0 8 11\n0.2 1A0 8 33" else none

theorem claim_skip_corrupt_line_amended_witness :
    ∃ rows, (load_file "c2w.txt" readFileC2w initialState).2 = .loaded
      ∧ (load_file "c2w.txt" readFileC2w initialState).1.df = .typed rows
      ∧ List.Forall₂ (fun raw row => convertRow raw = some row)
          [⟨"0.1", some "1A0", some "8", some "11"⟩,
           ⟨"0.2", some "1A0", some "8", some "33"⟩] rows
      ∧ rows.length = 2 :=
  (claim_skip_corrupt_line_amended "c2w.txt" readFileC2w initialState
      "0.1 1A0 8 11\n0.2 1A0 8 33"
      [⟨"0.1", some "1A0", some "8", some "11"⟩, ⟨"0.2", some "1A0", some "8", some "33"⟩]
      (by decide) (by with_unfolding_all decide) (by with_unfolding_all decide)).1
    (by with_unfolding_all decide)

def rowsC3 : List Row :=
  [⟨1, some "1a0", some "8", some "11", splitBytes (some "11")⟩]

/-- C3 counterexample: the selection value is NOT whitespace-trimmed
before the comparison (only the stored `ID` is): against a table storing
`message_id = "1a0"`, querying `"1A0"` returns the series but querying
`" 1a0 "` returns nothing, so the three spellings of the claim do not all
return the identical series. -/
theorem claim_match_trim_both_cex :
    seriesFor rowsC3 " 1a0 " = none
    ∧ seriesFor rowsC3 "1A0" =
        some ⟨[1], [[some 11], [none], [none], [none], [none], [none], [none], [none]]⟩
    ∧ seriesFor rowsC3 " 1a0 " ≠ seriesFor rowsC3 "1A0" := by
  refine ⟨?_, ?_, ?_⟩ <;> with_unfolding_all decide

/-- C3 amended: matching is case-insensitive, and the STORED `message_id`
is whitespace-trimmed — two selection values differing only in letter
case always return the identical series, and a stored id `" 1a0 "` is
found by the query `"1A0"` — but the selection value itself is not
trimmed, so `" 1a0 "` as a query does not match (see the
counterexample). -/
theorem claim_match_case_insensitive_amended :
    (∀ rows s1 s2, upperStr s1 = upperStr s2 → seriesFor rows s1 = seriesFor rows s2)
    ∧ seriesFor [⟨1, some " 1a0 ", some "8", some "11", splitBytes (some "11")⟩] "1A0" =
        some ⟨[1], [[some 11], [none], [none], [none], [none], [none], [none], [none]]⟩ := by
  constructor
  · intro rows s1 s2 h
    have hm : matchesSignal s1 = matchesSignal s2 := by
      funext r
      rw [matchesSignal, matchesSignal, h]
    rw [seriesFor, seriesFor, hm]
  · with_unfolding_all decide

theorem claim_match_case_insensitive_amended_witness :
    seriesFor rowsC3 "1A0" = seriesFor rowsC3 "1a0" :=
  claim_match_case_insensitive_amended.1 rowsC3 "1A0" "1a0" (by with_unfolding_all decide)

def rowsC4 : List Row :=
  [⟨1/10, some "1A0", some "8", some "11", splitBytes (some "11")⟩,
   ⟨5, some "1A0", some "8", some "12", splitBytes (some "12")⟩,
   ⟨23/10, some "1A0", some "8", some "13", splitBytes (some "13")⟩]

def stateC4 : AnalyzerState := ⟨"c4.txt", .typed rowsC4, []⟩

/-- C4 counterexample: over timestamps `[0.1, 5.0, 2.3]` the x-axis range
passed to every panel is `(0, 5.0)` (`ax.set_xlim(0, last_timestamp)`),
not `(0.1, 5.0)` as the claim's (min, max) reading requires. -/
theorem claim_extent_min_max_cex :
    (plot_data ["1A0"] stateC4).2 = .plotted (0, 5) (queryPanels rowsC4 ["1A0"])
    ∧ (0 : Rat) ≠ 1/10
    ∧ (plot_data ["1A0"] stateC4).2 ≠ .plotted (1/10, 5) (queryPanels rowsC4 ["1A0"]) := by
  refine ⟨?_, ?_, ?_⟩ <;> with_unfolding_all decide

/-- C4 amended: the shared x-axis range is `(0, max timestamp)`, with the
maximum computed once over the whole table, an upper bound of every
timestamp, independent of row order and of which signals are selected;
on an empty table no extent is computed at all (the guard warns and
returns first). -/
theorem claim_extent_zero_max_amended :
    ∀ s rows sel, s.df = .typed rows → rows ≠ [] → sel ≠ [] →
      plot_data sel s = (s, .plotted (0, tsMax rows) (queryPanels rows sel))
      ∧ tsMax rows ∈ rows.map (·.timestamp)
      ∧ (∀ t ∈ rows.map (·.timestamp), t ≤ tsMax rows)
      ∧ (∀ rows', rows.Perm rows' → tsMax rows' = tsMax rows) := by
  intro s rows sel hdf hrows hsel
  exact ⟨plot_data_typed_eval s rows sel hdf hrows hsel, tsMax_mem rows hrows,
    fun t ht => le_tsMax rows t ht,
    fun rows' hp => (tsMax_perm rows rows' hp hrows).symm⟩

theorem claim_extent_zero_max_amended_witness :
    plot_data ["1A0"] stateC4 = (stateC4, .plotted (0, tsMax rowsC4) (queryPanels rowsC4 ["1A0"]))
    ∧ tsMax rowsC4 ∈ rowsC4.map (·.timestamp)
    ∧ (∀ t ∈ rowsC4.map (·.timestamp), t ≤ tsMax rowsC4)
    ∧ (∀ rows', rowsC4.Perm rows' → tsMax rows' = tsMax rowsC4) :=
  claim_extent_zero_max_amended stateC4 rowsC4 ["1A0"] rfl
    (by with_unfolding_all decide) (by decide)

theorem row_strip_id (r : Row) (h : ∀ i, r.id = some i → stripStr i = i) :
    { r with id := r.id.map stripStr } = r := by
  cases r with
  | mk t rid d da b =>
    cases rid with
    | none => rfl
    | some i =>
      have h2 := h i rfl
      simp only [Option.map_some']
      rw [h2]

/-- C5: For every loaded table, the listbox's list of distinct message
identifiers is sorted ascending, every listed identifier is already in
normalized (trimmed) form, and computing the list over trimmed
identifiers gives the same result — loading tokenises on whitespace, so
a raw line whose `ID` field is written `" 100"` stores `"100"`, and such
rows contribute a single entry. -/
theorem claim_distinct_ids_sorted :
    ∀ path rf s, (load_file path rf s).2 = .loaded →
      ∃ rows, (load_file path rf s).1.df = .typed rows ∧
        ∀ ids, distinct_message_ids rows = some ids →
          List.Sorted (· ≤ ·) ids
          ∧ (∀ i ∈ ids, stripStr i = i)
          ∧ distinct_message_ids (rows.map (fun r => { r with id := r.id.map stripStr }))
              = some ids := by
  intro path rf s h
  rcases load_file_loaded_inv path rf s h with ⟨contents, raws, rows, _, _, hcsv, hconv, hst⟩
  have hdf : (load_file path rf s).1.df = .typed rows := by rw [hst]
  have hclean : ∀ r ∈ rows, ∀ i, r.id = some i → ∀ c ∈ i.data, c.isWhitespace = false :=
    load_file_ids_clean path rf s rows h hdf
  refine ⟨rows, hdf, ?_⟩
  intro ids hids
  rw [distinct_message_ids] at hids
  rcases Option.map_eq_some'.mp hids with ⟨ids0, hseq, rfl⟩
  have hmem : ∀ i ∈ ids0, ∃ r ∈ rows, r.id = some i := by
    intro i hi
    have h1 : some i ∈ uniqueFirst (rows.map (·.id)) := by
      rcases forall2_mem_right (seqOpt_eq_some_iff.mp hseq) i hi with ⟨o, ho, rfl⟩
      exact ho
    have h2 : some i ∈ rows.map (·.id) := uniqueFirst_subset _ _ h1
    rcases List.mem_map.mp h2 with ⟨r, hr, hid⟩
    exact ⟨r, hr, hid⟩
  have hstrip : ∀ i ∈ List.insertionSort (· ≤ ·) ids0, stripStr i = i := by
    intro i hi
    have hi0 : i ∈ ids0 := (List.mem_insertionSort (· ≤ ·)).mp hi
    rcases hmem i hi0 with ⟨r, hr, hid⟩
    exact stripStr_of_clean i (hclean r hr i hid)
  refine ⟨List.sorted_insertionSort (· ≤ ·) ids0, hstrip, ?_⟩
  have hmapeq : rows.map (fun r => { r with id := r.id.map stripStr }) = rows := by
    apply map_eq_self_of_mem
    intro r hr
    exact row_strip_id r (fun i hid => stripStr_of_clean i (hclean r hr i hid))
  rw [hmapeq, distinct_message_ids, hseq]
  rfl

def readFileC5 : String → Option String :=
  fun p => if p = "c5.txt" then some "1.0  100 8 11\n2.0 100 8 22\n3.0 1A0 8 33" else none

def rowsC5 : List Row :=
  [⟨1, some "100", some "8", some "11", splitBytes (some "11")⟩,
   ⟨2, some "100", some "8", some "22", splitBytes (some "22")⟩,
   ⟨3, some "1A0", some "8", some "33", splitBytes (some "33")⟩]

theorem claim_distinct_ids_sorted_witness :
    distinct_message_ids rowsC5 = some ["100", "1A0"]
    ∧ List.Sorted (· ≤ ·) ["100", "1A0"]
    ∧ (∀ i ∈ ["100", "1A0"], stripStr i = i)
    ∧ distinct_message_ids (rowsC5.map (fun r => { r with id := r.id.map stripStr }))
        = some ["100", "1A0"] := by
  obtain ⟨rows, hdf, h⟩ :=
    claim_distinct_ids_sorted "c5.txt" readFileC5 initialState (by with_unfolding_all decide)
  have hdf2 : (load_file "c5.txt" readFileC5 initialState).1.df = .typed rowsC5 := by
    with_unfolding_all decide
  have hrows : rows = rowsC5 := Frame.typed.inj (hdf.symm.trans hdf2)
  subst hrows
  have hids : distinct_message_ids rowsC5 = some ["100", "1A0"] := by
    with_unfolding_all decide
  rcases h ["100", "1A0"] hids with ⟨h1, h2, h3⟩
  exact ⟨hids, h1, h2, h3⟩

/-- C6: A selected identifier with zero matching rows yields no panel for
that identifier and is not an error: the query output is as if that
identifier had not been selected (`continue` at line 168), the absent id
appears in no panel, and the plot call still succeeds, producing the
other selected identifiers' series unaffected. -/
theorem claim_absent_signal_silent :
    ∀ rows pre post a, rows.filter (matchesSignal a) = [] →
      queryPanels rows (pre ++ a :: post) = queryPanels rows (pre ++ post)
      ∧ (∀ p ∈ queryPanels rows (pre ++ a :: post), p.1 ≠ a)
      ∧ (∀ s : AnalyzerState, s.df = .typed rows → rows ≠ [] →
          plot_data (pre ++ a :: post) s =
            (s, .plotted (0, tsMax rows) (queryPanels rows (pre ++ post)))) := by
  intro rows pre post a h
  have hnone : seriesFor rows a = none := by
    rw [seriesFor]
    simp [h]
  have h1 : queryPanels rows (pre ++ a :: post) = queryPanels rows (pre ++ post) := by
    rw [queryPanels, queryPanels, List.filterMap_append, List.filterMap_append]
    congr 1
    rw [List.filterMap_cons]
    simp [hnone]
  refine ⟨h1, ?_, ?_⟩
  · intro p hp hpa
    rcases List.mem_filterMap.mp hp with ⟨sig, hsig, heq⟩
    rcases Option.map_eq_some'.mp heq with ⟨se, hse, hpse⟩
    have hsig_a : sig = a := by rw [← hpse] at hpa; exact hpa
    rw [hsig_a, hnone] at hse
    exact Option.noConfusion hse
  · intro s hdf hrows
    have hsel : (pre ++ a :: post) ≠ [] := by
      intro hh
      rcases List.append_eq_nil.mp hh with ⟨_, h2⟩
      exact List.noConfusion h2
    rw [plot_data_typed_eval s rows (pre ++ a :: post) hdf hrows hsel, h1]

def rowsC6 : List Row :=
  [⟨1, some "100", some "8", some "11", splitBytes (some "11")⟩]

def stateC6 : AnalyzerState := ⟨"c6.txt", .typed rowsC6, []⟩

theorem claim_absent_signal_silent_witness :
    queryPanels rowsC6 ["200", "100"] = queryPanels rowsC6 ["100"]
    ∧ (∀ p ∈ queryPanels rowsC6 ["200", "100"], p.1 ≠ "200")
    ∧ plot_data ["200", "100"] stateC6 =
        (stateC6, .plotted (0, tsMax rowsC6) (queryPanels rowsC6 ["100"])) := by
  rcases claim_absent_signal_silent rowsC6 [] ["100"] "200"
    (by with_unfolding_all decide) with ⟨h1, h2, h3⟩
  exact ⟨h1, h2, h3 stateC6 rfl (by with_unfolding_all decide)⟩

def readFileC7 : String → Option String :=
  fun p => if p = "c7.txt" then some "xx 1A0 8 11" else none

def stateC7 : AnalyzerState :=
  ⟨"old.txt", .typed [⟨1, some "OLD", some "8", some "99", splitBytes (some "99")⟩], []⟩

/-- C7 counterexample: when the file's contents fail conversion
(unparsable timestamp), the failure IS reported as a single error, but
the in-memory table is NOT free of partial contents: `self.df` was
already reassigned at line 86, so after the failure it holds the raw
unconverted frame read from the failed file, not the previous table. -/
theorem claim_no_partial_table_cex :
    (load_file "c7.txt" readFileC7 stateC7).2 = .convertError
    ∧ (load_file "c7.txt" readFileC7 stateC7).1.df =
        .raw [⟨"xx", some "1A0", some "8", some "11"⟩]
    ∧ (load_file "c7.txt" readFileC7 stateC7).1.df ≠ stateC7.df := by
  refine ⟨?_, ?_, ?_⟩ <;> with_unfolding_all decide

/-- C7 amended: a failure in `read_csv` itself (file missing, unreadable,
or empty) is reported and leaves the previous table and colors intact;
but a failure of the `astype(float)` conversion is reported with the
table already replaced by the raw frame read from the failed file. -/
theorem claim_load_failure_state_amended :
    ∀ path rf s,
      ((load_file path rf s).2 = .readError →
        (load_file path rf s).1.df = s.df ∧ (load_file path rf s).1.colors = s.colors)
      ∧ ((load_file path rf s).2 = .convertError →
        ∃ contents raws, rf path = some contents ∧ readCSV contents = some raws ∧
          convertFrame raws = none ∧ (load_file path rf s).1.df = .raw raws) := by
  intro path rf s
  constructor
  · intro h
    rw [load_file_readError_inv path rf s h]
    exact ⟨rfl, rfl⟩
  · intro h
    rcases load_file_convertError_inv path rf s h with ⟨contents, raws, _, hrf, hcsv, hconv, hst⟩
    exact ⟨contents, raws, hrf, hcsv, hconv, by rw [hst]⟩

def readFileC7w : String → Option String := fun _ => none

theorem claim_load_failure_state_amended_witness :
    ((load_file "missing.txt" readFileC7w stateC7).1.df = stateC7.df
      ∧ (load_file "missing.txt" readFileC7w stateC7).1.colors = stateC7.colors)
    ∧ (∃ contents raws, readFileC7 "c7.txt" = some contents ∧ readCSV contents = some raws ∧
        convertFrame raws = none ∧ (load_file "c7.txt" readFileC7 stateC7).1.df = .raw raws) :=
  ⟨(claim_load_failure_state_amended "missing.txt" readFileC7w stateC7).1
      (by with_unfolding_all decide),
   (claim_load_failure_state_amended "c7.txt" readFileC7 stateC7).2
      (by with_unfolding_all decide)⟩

/-- C8 counterexample: there is no packed-token auto-detection: a single
token such as `"0102FF"` is handed whole to `pd.to_numeric`, which
coerces it to NaN, so the result is all-`none`, not the per-pair byte
values `[1, 2, 255, ...]` the claim requires. -/
theorem claim_packed_shape_cex :
    splitBytes (some "0102FF") = [none, none, none, none, none, none, none, none]
    ∧ splitBytes (some "0102FF") ≠
        [some 1, some 2, some 255, none, none, none, none, none] := by
  refine ⟨?_, ?_⟩ <;> decide

/-- C8 amended: only the space-delimited shape is handled.  A raw data
field without spaces is one token: it lands entirely in byte 0 when it
parses as a single decimal number, and yields all-`none` otherwise —
`"0102FF"` gives 8 `none`s and `"010299"` gives the single number 10299
in byte 0, never per-character-pair byte values. -/
theorem claim_single_token_shape_amended :
    (∀ s : String, ' ' ∉ s.data →
      splitBytes (some s) = [parseFloat s, none, none, none, none, none, none, none])
    ∧ splitBytes (some "0102FF") = [none, none, none, none, none, none, none, none]
    ∧ splitBytes (some "010299")
        = [some (mkRat 10299 1), none, none, none, none, none, none, none] := by
  refine ⟨?_, by decide, by decide⟩
  intro s hs
  obtain ⟨d⟩ := s
  simp only [splitBytes, splitSingleSpace, splitOnChar_of_not_mem ' ' d hs]
  rfl

theorem claim_single_token_shape_amended_witness :
    splitBytes (some "777") = [parseFloat "777", none, none, none, none, none, none, none] :=
  claim_single_token_shape_amended.1 "777" (by decide)

def stateC9 : AnalyzerState :=
  ⟨"old.txt", .typed [⟨1, some "100", some "8", some "11", splitBytes (some "11")⟩],
   [("100", "#ff0000")]⟩

/-- C9 counterexample: a cancelled file dialog keeps the table and colors
but is not a complete no-op on the analyzer state: line 80 assigns the
dialog result to `self.log_file` before the emptiness check, so a
previously stored path `"old.txt"` is overwritten with `""`. -/
theorem claim_cancel_noop_cex :
    (load_file "" (fun _ => none) stateC9).2 = .cancelled
    ∧ (load_file "" (fun _ => none) stateC9).1.log_file = ""
    ∧ stateC9.log_file = "old.txt"
    ∧ (load_file "" (fun _ => none) stateC9).1 ≠ stateC9 := by
  refine ⟨?_, ?_, ?_, ?_⟩ <;> decide

/-- C9 amended: on a cancelled selection the previously loaded table and
the stored colors remain exactly as they were and nothing is loaded, but
the stored log-file path is overwritten with the dialog's empty result. -/
theorem claim_cancel_keeps_table_amended :
    ∀ (rf : String → Option String) (s : AnalyzerState),
      (load_file "" rf s).1.df = s.df ∧ (load_file "" rf s).1.colors = s.colors
      ∧ (load_file "" rf s).1.log_file = "" ∧ (load_file "" rf s).2 = .cancelled :=
  fun _ _ => ⟨rfl, rfl, rfl, rfl⟩

/-- C10: requesting a plot with an empty selection warns and returns, and
with a non-empty selection but an empty table warns and returns; in both
cases the state (table, colors, path) is returned unchanged and no figure
is produced — the guards fire before any plotting. -/
theorem claim_plot_guards :
    ∀ sel (s : AnalyzerState),
      (sel = [] → plot_data sel s = (s, .warnNoSignal))
      ∧ (sel ≠ [] → s.df.isEmpty = true → plot_data sel s = (s, .warnNoFile)) := by
  intro sel s
  constructor
  · intro h
    subst h
    rfl
  · intro hsel hdf
    have h1 : sel.isEmpty = false := by
      cases sel with
      | nil => exact absurd rfl hsel
      | cons a l => rfl
    rw [plot_data, if_neg (by rw [h1]; exact Bool.false_ne_true), if_pos hdf]

theorem claim_plot_guards_witness :
    plot_data [] initialState = (initialState, .warnNoSignal)
    ∧ plot_data ["1A0"] initialState = (initialState, .warnNoFile) :=
  ⟨(claim_plot_guards [] initialState).1 rfl,
   (claim_plot_guards ["1A0"] initialState).2 (by decide) rfl⟩
